import Mathlib

/-!
# Verification of the FuseCore mod-loader (`fusecore/_modloader.py`)

Shallow embedding of the mod discovery / hot-reload subsystem:

* `FSNode` models an on-disk file tree (files carry an mtime in nanoseconds and,
  for `manifest.json` files, their parse result); `World` is the filesystem
  state one scan cycle observes, plus which module imports would raise.
* `get_filetree_time_hash` embeds `ModEntry.get_filetree_time_hash`: the SHA-1
  hasher is abstracted as a parameter `sha1 : String → String` applied to the
  exact concatenated byte stream the source feeds into `hasher.update`.
* `read_one_entry` / `read_loop` / `read_mod_entries` embed
  `ModLoaderSubsystem.read_mod_entries`; `scan_for_mods` embeds
  `ModLoaderSubsystem.scan_for_mods`; `load_folder_as_mod`,
  `migrate_files`, `get_manifest_data`, `generate_mod_name_hash`,
  `add_scan_path` embed the methods of the same names.
* Python exceptions are modelled as `Option PyErr` results; an exception
  carries along the events (copies, imports, notifications) that happened
  before it was raised, matching Python's mutate-then-raise behaviour.
  Transient OSErrors during `stat` and copy-I/O failures are not modelled
  (the model filesystem does not fail); `KeyError` on manifest access,
  `TypeError` on a non-directory folder path, `NotADirectoryError` /
  `IsADirectoryError` on copying, and import failures are modelled.
-/

set_option autoImplicit false

namespace FuseCore

/-- An absolute filesystem path as its list of components
(`os.path.join` appends components). -/
abbrev FPath := List String

/-- A mod's type (`ModEntryType` in the source). -/
inductive ModEntryType where
  | PLUGIN
  | FOLDER
  | PACKED
  | COMPRESSED
deriving DecidableEq, Repr

/-- The `assets` object of a parsed `manifest.json`.  Fields are `Option`s:
a key missing from the JSON object is `none`, and accessing it raises
`KeyError` in the source. -/
structure AssetsJson where
  main : Option String
  textures : Option String
  audio : Option String
  meshes : Option String
deriving DecidableEq, Repr

/-- A parsed `manifest.json` object (any JSON object; required keys may be
missing, in which case subscripting raises `KeyError`). -/
structure ManifestJson where
  name : Option String
  author : Option String
  assets : Option AssetsJson
deriving DecidableEq, Repr

/-- What a file's bytes mean to the loader.  Only `manifest.json` contents are
ever interpreted: `manifest m` is a file that `json.loads` parses to `m`;
`other` is any file that is not valid JSON (for `manifest.json`, a
`json.JSONDecodeError` that `_get_manifest_data` catches) or whose content
is never read. -/
inductive FileContent where
  | other
  | manifest (m : ManifestJson)
deriving DecidableEq, Repr

/-- A file tree: a regular file with an `st_mtime_ns` timestamp and content,
or a directory with named children in `os.listdir` order. -/
inductive FSNode where
  | file (mtime : Nat) (content : FileContent)
  | dir (children : List (String × FSNode))

/-- Look up an immediate child by name. -/
def childNode (cs : List (String × FSNode)) (name : String) : Option FSNode :=
  (cs.find? (fun p => p.1 == name)).map (·.2)

/-- Resolve a path inside a tree (`None` = the path does not exist). -/
def getNode : FSNode → FPath → Option FSNode
  | n, [] => some n
  | .file _ _, _ :: _ => none
  | .dir cs, c :: rest =>
    match childNode cs c with
    | none => none
    | some n => getNode n rest

/-- The filesystem state observed by one scan cycle, plus which entry-script
module names would raise when imported (modelling import-time failures). -/
structure World where
  root : FSNode
  importFails : List String

/-- `os.path.exists` / path resolution against a `World`. -/
def World.node (w : World) (p : FPath) : Option FSNode :=
  getNode w.root p

/-- `pathlib.PurePath.suffix` of a single path component: the part of the name
from the last dot on, provided that dot is neither the first nor the last
character; otherwise the empty string. -/
def pathSuffix (name : String) : String :=
  let cs := name.toList
  match lastDotIndex cs with
  | none => ""
  | some i => if 0 < i ∧ i < cs.length - 1 then String.mk (cs.drop i) else ""
where
  /-- Index of the last `'.'` in a character list (Python `str.rfind('.')`). -/
  lastDotIndex : List Char → Option Nat
    | [] => none
    | c :: rest =>
      match lastDotIndex rest with
      | some i => some (i + 1)
      | none => if c = '.' then some 0 else none

/-- Insert into a name-sorted association list (used to model Python's
`sorted` over the filenames of one directory). -/
def insertByName (x : String × Nat) : List (String × Nat) → List (String × Nat)
  | [] => [x]
  | y :: ys => if x.1 ≤ y.1 then x :: y :: ys else y :: insertByName x ys

/-- Sort `(filename, mtime)` pairs by filename (Python `sorted(fl)`). -/
def sortByName (l : List (String × Nat)) : List (String × Nat) :=
  l.foldr insertByName []

/-- The `(name, st_mtime_ns)` pairs of the regular-file children of one
directory listing. -/
def fileChildren (cs : List (String × FSNode)) : List (String × Nat) :=
  cs.filterMap (fun p =>
    match p.2 with
    | .file t _ => some (p.1, t)
    | .dir _ => none)

mutual
/-- The `st_mtime_ns` values contributed by the subdirectories of a directory
listing, in `os.walk` top-down order: each subdirectory (in listing order)
contributes its own files' mtimes (filenames sorted) followed by its
subdirectories' contribution, recursively.  File children contribute nothing
here (their parent's own file list already covers them). -/
def subMtimes : List (String × FSNode) → List Nat
  | [] => []
  | (_, n) :: rest => subMtimesNode n ++ subMtimes rest

/-- One child's contribution to the subdirectory traversal. -/
def subMtimesNode : FSNode → List Nat
  | .file _ _ => []
  | .dir cs => (sortByName (fileChildren cs)).map (·.2) ++ subMtimes cs
end

/-- All `st_mtime_ns` values under a directory in the order
`ModEntry.get_filetree_time_hash` visits them: `os.walk` top-down, filenames
sorted within each directory. -/
def dirMtimes (cs : List (String × FSNode)) : List Nat :=
  (sortByName (fileChildren cs)).map (·.2) ++ subMtimes cs

/-- The exact byte stream `ModEntry.get_filetree_time_hash` feeds into
`hashlib.sha1` via `hasher.update(f"{...st_mtime_ns}".encode())`:
for a directory, the concatenated decimal mtime strings of every file under
it in walk order; for a single file, that file's decimal mtime string. -/
def filetreeStream : FSNode → String
  | .file t _ => toString t
  | .dir cs => String.join ((dirMtimes cs).map (fun t => toString t))

/-- `ModEntry.get_filetree_time_hash`, with SHA-1 abstracted as the pure
function `sha1` applied to the concatenated update stream. -/
def get_filetree_time_hash (sha1 : String → String) (node : FSNode) : String :=
  sha1 (filetreeStream node)

/-- The SHA-1 and SHA-256 hex-digest functions, abstracted as pure functions
from the concatenated update stream to the digest string. -/
structure Hashers where
  sha1 : String → String
  sha256 : String → String

/-- The string `f"{name}&{author}"` whose SHA-256 digest names a mod's asset
destination folder (`ModLoaderSubsystem._generate_mod_name_hash`). -/
def encodedTitle (name author : String) : String :=
  name ++ "&" ++ author

/-- `ModLoaderSubsystem._generate_mod_name_hash` on a manifest whose
`name`/`author` keys are present (the `KeyError` cases are handled at the
call site in `load_folder_as_mod`). -/
def generate_mod_name_hash (sha256 : String → String) (name author : String) : String :=
  sha256 (encodedTitle name author)

/-- A tracked mod (`ModEntry` in the source): identity is `(path, type)`. -/
structure ModEntry where
  path : FPath
  type : ModEntryType
deriving DecidableEq, Repr

/-- Python exceptions the embedding models. -/
inductive PyErr where
  | typeError
  | keyError (key : String)
  | importError (modname : String)
  | fileNotFoundError
  | notADirectoryError
  | isADirectoryError
deriving DecidableEq, Repr

/-- Observable actions of one cycle.  `dispatched e` marks that
`read_mod_entries` took the update branch for `e`: the new digest was
committed and the kind's processing step was reached (`_load_file_as_plugin`
and `_load_compressed_mod_file` are empty stubs and `COMPRESSED` has no
match arm, so only `FOLDER` produces further events). -/
inductive Event where
  | dispatched (e : ModEntry)
  | copied (src dst : FPath)
  | imported (modname : String) (firstLoad : Bool)
  | screenMessage (name author : String) (firstLoad : Bool)
deriving DecidableEq, Repr

/-- The loader's mutable state: `paths_to_scan`, `_mod_entries` (a set,
modelled as a duplicate-free list in iteration order) and
`_mod_entry_hashes` (a dict, modelled as an association list in insertion
order). -/
structure LoaderState where
  pathsToScan : List FPath
  entries : List ModEntry
  hashes : List (ModEntry × String)
deriving DecidableEq, Repr

/-- Dictionary lookup in `_mod_entry_hashes`. -/
def hashLookup : List (ModEntry × String) → ModEntry → Option String
  | [], _ => none
  | p :: rest, e => if p.1 == e then some p.2 else hashLookup rest e

/-- Dictionary assignment `_mod_entry_hashes[entry] = value` (updates the
existing key in place, else appends). -/
def hashSet : List (ModEntry × String) → ModEntry → String → List (ModEntry × String)
  | [], e, v => [(e, v)]
  | p :: rest, e, v => if p.1 == e then (p.1, v) :: rest else p :: hashSet rest e v

/-- `_mod_entry_hashes.setdefault(entry, "")`'s effect on the dict. -/
def setdefaultEmpty (hs : List (ModEntry × String)) (e : ModEntry) : List (ModEntry × String) :=
  match hashLookup hs e with
  | some _ => hs
  | none => hs ++ [(e, "")]

/-- `ModLoaderSubsystem._get_manifest_data`: read `manifest.json` at the
package root; absent file, non-file, or JSON parse failure all yield `none`
(the parse failure is caught and logged in the source). -/
def get_manifest_data (w : World) (path : FPath) : Option ManifestJson :=
  match w.node (path ++ ["manifest.json"]) with
  | some (.file _ (.manifest m)) => some m
  | _ => none

/-- `get_mods_resource_folder`: `<data>/ba_data/<resource>2/<CORE_FOLDER_NAME>/mods/ext`.
`fusecore/common.py` is not in the source tree; `CORE_FOLDER_NAME` is taken
as `"core"` after the sibling `core/common.py`.  The process-wide data
directory root is a fixed constant and is omitted from the path (no claim
depends on it). -/
def mods_resource_folder (resource : String) : FPath :=
  ["ba_data", resource ++ "2", "core", "mods", "ext"]

/-- The copy loop of `_migrate_files`: for each name in `os.listdir(source)`,
copy it into `to_path` when its suffix is allowed.  `shutil.copy` of a
directory raises `IsADirectoryError`; events before a raise are kept. -/
def copyListing (source toPath : FPath) (allowed : List String) :
    List (String × FSNode) → List Event × Option PyErr
  | [] => ([], none)
  | (n, node) :: rest =>
    if allowed.contains (pathSuffix n) then
      match node with
      | .dir _ => ([], some .isADirectoryError)
      | .file _ _ =>
        let (evs, err) := copyListing source toPath allowed rest
        (Event.copied (source ++ [n]) (toPath ++ [n]) :: evs, err)
    else copyListing source toPath allowed rest

/-- `ModLoaderSubsystem._migrate_files`: skip silently when the source path
does not exist; `os.listdir` on a regular file raises `NotADirectoryError`;
else copy the allowed-suffix children into `destination/hashname`
(`os.makedirs` of that folder is a side effect the model does not track). -/
def migrate_files (w : World) (source destination : FPath) (hashname : String)
    (allowed : List String) : List Event × Option PyErr :=
  match w.node source with
  | none => ([], none)
  | some (.file _ _) => ([], some .notADirectoryError)
  | some (.dir cs) => copyListing source (destination ++ [hashname]) allowed cs

/-- The import step of `_load_folder_as_mod`: only runs when the manifest's
main script exists, is a file and has suffix `".py"`; the module name is the
filename without its extension; `importlib.import_module` /
`importlib.reload` raise iff the world says that module's import fails.
(`sys.path.append` is a side effect the model does not track.) -/
def import_main_script (w : World) (folderPath : FPath) (mainRel : String)
    (firstUpdate : Bool) : List Event × Option PyErr :=
  match w.node (folderPath ++ [mainRel]) with
  | some (.file _ _) =>
    if pathSuffix mainRel == ".py" then
      let filename := mainRel.dropRight (pathSuffix mainRel).length
      if w.importFails.contains filename then ([], some (.importError filename))
      else ([Event.imported filename firstUpdate], none)
    else ([], none)
  | _ => ([], none)

/-- Sequencing of two effectful steps under Python exception semantics: if
the first step raised, its events stand and the raise propagates; otherwise
the second step runs and its events are appended. -/
def thenRun (a : List Event × Option PyErr) (k : Unit → List Event × Option PyErr) :
    List Event × Option PyErr :=
  match a with
  | (evs, some er) => (evs, some er)
  | (evs, none) =>
    let r := k ()
    (evs ++ r.1, r.2)

/-- `ModLoaderSubsystem._load_folder_as_mod`.  Raises `TypeError` when the
path is not a directory; returns silently when `_get_manifest_data` gives
`None`; raises `KeyError` at the first missing manifest key, in source
access order (`name`, `author` inside `_generate_mod_name_hash`, then
`assets`, `assets.main`, `assets.textures`, `assets.audio`,
`assets.meshes`); migrates the three asset kinds; imports/reloads the main
script; finally emits the on-screen notification. -/
def load_folder_as_mod (H : Hashers) (w : World) (folderPath : FPath)
    (firstUpdate : Bool) : List Event × Option PyErr :=
  match w.node folderPath with
  | some (.dir _) =>
    match get_manifest_data w folderPath with
    | none => ([], none)
    | some m =>
      match m.name with
      | none => ([], some (.keyError "name"))
      | some n =>
        match m.author with
        | none => ([], some (.keyError "author"))
        | some a =>
          let hashname := generate_mod_name_hash H.sha256 n a
          match m.assets with
          | none => ([], some (.keyError "assets"))
          | some asts =>
            match asts.main with
            | none => ([], some (.keyError "main"))
            | some mainRel =>
              match asts.textures with
              | none => ([], some (.keyError "textures"))
              | some texRel =>
                match asts.audio with
                | none => ([], some (.keyError "audio"))
                | some audRel =>
                  match asts.meshes with
                  | none => ([], some (.keyError "meshes"))
                  | some meshRel =>
                    thenRun (migrate_files w (folderPath ++ [texRel])
                        (mods_resource_folder "textures") hashname [".png", ".dds", ".ktx"]) fun _ =>
                      thenRun (migrate_files w (folderPath ++ [audRel])
                          (mods_resource_folder "audio") hashname [".ogg"]) fun _ =>
                        thenRun (migrate_files w (folderPath ++ [meshRel])
                            (mods_resource_folder "meshes") hashname [".bob", ".cob"]) fun _ =>
                          thenRun (import_main_script w folderPath mainRel firstUpdate) fun _ =>
                            ([Event.screenMessage n a firstUpdate], none)
  | _ => ([], some .typeError)

/-- One iteration of the loop body of `ModLoaderSubsystem.read_mod_entries`
for a single entry: drop the entry when its path no longer exists; else
`setdefault` its digest row, compute the fresh digest, and when the update
condition holds, commit the fresh digest to the dict and run the kind's
processing step. -/
def read_one_entry (H : Hashers) (w : World) (st : LoaderState) (e : ModEntry) :
    LoaderState × List Event × Option PyErr :=
  match w.node e.path with
  | none => ({ st with entries := st.entries.erase e }, [], none)
  | some node =>
    let lasthash := (hashLookup st.hashes e).getD ""
    let hashes1 := setdefaultEmpty st.hashes e
    let firstUpdate := lasthash == ""
    let newhash := get_filetree_time_hash H.sha1 node
    let updateable := e.type == ModEntryType.PLUGIN || e.type == ModEntryType.FOLDER
    if (lasthash != newhash && updateable) || (!updateable && firstUpdate) then
      let st2 := { st with hashes := hashSet hashes1 e newhash }
      match e.type with
      | .FOLDER =>
        let r := load_folder_as_mod H w e.path firstUpdate
        (st2, Event.dispatched e :: r.1, r.2)
      | _ => (st2, [Event.dispatched e], none)
    else
      ({ st with hashes := hashes1 }, [], none)

/-- The loop of `read_mod_entries` over the snapshot `self._mod_entries.copy()`:
an uncaught exception from one entry aborts the loop, keeping the state
mutations and events made so far. -/
def read_loop (H : Hashers) (w : World) :
    List ModEntry → LoaderState → LoaderState × List Event × Option PyErr
  | [], st => (st, [], none)
  | e :: rest, st =>
    let r := read_one_entry H w st e
    match r.2.2 with
    | some er => (r.1, r.2.1, some er)
    | none =>
      let r2 := read_loop H w rest r.1
      (r2.1, r.2.1 ++ r2.2.1, r2.2.2)

/-- `ModLoaderSubsystem.read_mod_entries`. -/
def read_mod_entries (H : Hashers) (w : World) (st : LoaderState) :
    LoaderState × List Event × Option PyErr :=
  read_loop H w st.entries st

/-- The classification of one filesystem entry in `scan_for_mods`:
directory → `FOLDER`; file → by suffix (`.py` / `.bsmod` / `.zip` / `.rar`);
anything else → `none` (logged at debug level, not tracked). -/
def classify_entry (name : String) (node : Option FSNode) : Option ModEntryType :=
  match node with
  | some (.dir _) => some .FOLDER
  | some (.file _ _) =>
    match pathSuffix name with
    | ".py" => some .PLUGIN
    | ".bsmod" => some .PACKED
    | ".zip" => some .COMPRESSED
    | ".rar" => some .COMPRESSED
    | _ => none
  | none => none

/-- The entries discovered under one scan root: each listed child that
classifies to a kind becomes a `ModEntry` at `root ++ [name]`. -/
def discover_root (root : FPath) (cs : List (String × FSNode)) : List ModEntry :=
  cs.filterMap (fun p =>
    (classify_entry p.1 (some p.2)).map (fun ty => ModEntry.mk (root ++ [p.1]) ty))

/-- `self._mod_entries.add(entry)` for each discovered entry (set semantics:
already-present entries are not duplicated). -/
def add_entries (st : LoaderState) (found : List ModEntry) : LoaderState :=
  found.foldl
    (fun acc e =>
      if acc.entries.contains e then acc
      else { acc with entries := acc.entries ++ [e] })
    st

/-- The discovery phase of `scan_for_mods`: roots that do not exist or are
not directories are skipped. -/
def scan_discover (w : World) (st : LoaderState) : LoaderState :=
  st.pathsToScan.foldl
    (fun acc root =>
      match w.node root with
      | some (.dir cs) => add_entries acc (discover_root root cs)
      | _ => acc)
    st

/-- `ModLoaderSubsystem.scan_for_mods`: discovery followed by
`read_mod_entries` (one full timer-driven cycle). -/
def scan_for_mods (H : Hashers) (w : World) (st : LoaderState) :
    LoaderState × List Event × Option PyErr :=
  read_mod_entries H w (scan_discover w st)

/-- `ModLoaderSubsystem.add_scan_path`: `FileNotFoundError` when the path
does not exist, `NotADirectoryError` when it is not a directory, else append
to `paths_to_scan`.  The raises happen before the append, so on failure the
state is unchanged. -/
def add_scan_path (w : World) (st : LoaderState) (p : FPath) : Except PyErr LoaderState :=
  match w.node p with
  | none => .error .fileNotFoundError
  | some (.file _ _) => .error .notADirectoryError
  | some (.dir _) => .ok { st with pathsToScan := st.pathsToScan ++ [p] }

/-- A sequence of timer-driven cycles, one per observed filesystem state. -/
def run_cycles (H : Hashers) (st : LoaderState) :
    List World → List (LoaderState × List Event × Option PyErr)
  | [] => []
  | w :: ws =>
    let r := scan_for_mods H w st
    r :: run_cycles H r.1 ws

/-! ## Spec-side definitions for the digest claim (C3) -/

mutual
/-- The ordered `(filename, st_mtime_ns)` pairs contributed by the
subdirectories of a directory listing, in the same deterministic walk order
as `subMtimes` (spec traversal: sorted filenames within each directory). -/
def subPairs : List (String × FSNode) → List (String × Nat)
  | [] => []
  | (_, n) :: rest => subPairsNode n ++ subPairs rest

/-- One child's contribution to the spec-side pair traversal. -/
def subPairsNode : FSNode → List (String × Nat)
  | .file _ _ => []
  | .dir cs => sortByName (fileChildren cs) ++ subPairs cs
end

/-- All ordered `(filename, st_mtime_ns)` pairs for every file under a
directory, visited in deterministic (sorted-per-directory) order. -/
def dirPairs (cs : List (String × FSNode)) : List (String × Nat) :=
  sortByName (fileChildren cs) ++ subPairs cs

/-- Modelled from the spec: the byte stream the *claim* says is hashed for a
`Folder` package — "the ordered concatenation of
`(filename, modification-time-in-nanoseconds)` pairs for every file under
the root", each pair contributing the filename followed by its decimal
mtime string. -/
def claimedDirStream (cs : List (String × FSNode)) : String :=
  String.join ((dirPairs cs).map (fun p => p.1 ++ toString p.2))

/-- Modelled from the spec (amended): the mtime-only stream — "the ordered
concatenation of the modification-time strings for every file under the
root, filenames sorted within each directory (the filenames determine the
order but are not themselves hashed)". -/
def amendedDirStream (cs : List (String × FSNode)) : String :=
  String.join ((dirPairs cs).map (fun p => toString p.2))

/-! ## Concrete scenario data for closed counterexamples and witnesses -/

/-- A concrete stand-in hasher for closed statements: prefixes a marker, so
every digest is non-empty and distinct streams keep distinct digests. -/
def tagHashers : Hashers := ⟨fun s => "#" ++ s, fun s => "%" ++ s⟩

/-- A scan root `mods` holding folder `m` (no manifest) with one file. -/
def mworld1 : World :=
  ⟨.dir [("mods", .dir [("m", .dir [("f.txt", .file 1 .other)])])], []⟩

/-- An empty initial loader state scanning the root `mods`. -/
def state0 : LoaderState := ⟨[["mods"]], [], []⟩

/-- The `Folder` entry discovered at `mods/m`. -/
def folderEntryM : ModEntry := ⟨["mods", "m"], .FOLDER⟩

/-- A manifest missing the required `name` key. -/
def badManifest : ManifestJson := ⟨none, some "x", none⟩

/-- A scan root holding folder `abad` (manifest missing `name`) listed before
the plugin file `cgood.py`. -/
def mworld2 : World :=
  ⟨.dir [("mods", .dir [
    ("abad", .dir [("manifest.json", .file 7 (.manifest badManifest))]),
    ("cgood.py", .file 4 .other)])], []⟩

/-- The `Folder` entry at `mods/abad`. -/
def folderEntryBad : ModEntry := ⟨["mods", "abad"], .FOLDER⟩

/-- The `Plugin` entry at `mods/cgood.py`. -/
def pluginEntryC : ModEntry := ⟨["mods", "cgood.py"], .PLUGIN⟩

/-- A scan root in which `mods/m` has disappeared. -/
def missWorld : World := ⟨.dir [("mods", .dir [])], []⟩

/-- A state already tracking `mods/m` with committed digest `"#1"`. -/
def state4 : LoaderState := ⟨[["mods"]], [folderEntryM], [(folderEntryM, "#1")]⟩

/-- A scan root holding a packed mod file `p.bsmod`. -/
def packedWorld : World := ⟨.dir [("mods", .dir [("p.bsmod", .file 2 .other)])], []⟩

/-- The `Packed` entry at `mods/p.bsmod`. -/
def packedEntry : ModEntry := ⟨["mods", "p.bsmod"], .PACKED⟩

/-- A state tracking only the packed entry, with no digest rows. -/
def statePacked : LoaderState := ⟨[["mods"]], [packedEntry], []⟩

/-- A scan root holding a plugin file `q.py`. -/
def pluginWorld : World := ⟨.dir [("mods", .dir [("q.py", .file 3 .other)])], []⟩

/-- The `Plugin` entry at `mods/q.py`. -/
def pluginEntryQ : ModEntry := ⟨["mods", "q.py"], .PLUGIN⟩

/-- A state tracking only the plugin entry, with no digest rows. -/
def statePlugin : LoaderState := ⟨[["mods"]], [pluginEntryQ], []⟩

/-! ## Helper lemmas -/

mutual
theorem subMtimes_eq_subPairs (l : List (String × FSNode)) :
    subMtimes l = (subPairs l).map (·.2) := by
  match l with
  | [] => rfl
  | (n, node) :: rest =>
    simp only [subMtimes, subPairs, List.map_append]
    rw [subMtimes_eq_subPairs rest, subMtimesNode_eq_subPairsNode node]

theorem subMtimesNode_eq_subPairsNode (n : FSNode) :
    subMtimesNode n = (subPairsNode n).map (·.2) := by
  match n with
  | .file t c => rfl
  | .dir cs =>
    simp only [subMtimesNode, subPairsNode, List.map_append]
    rw [subMtimes_eq_subPairs cs]
end

theorem dirMtimes_eq_dirPairs (cs : List (String × FSNode)) :
    dirMtimes cs = (dirPairs cs).map (·.2) := by
  simp [dirMtimes, dirPairs, subMtimes_eq_subPairs]

theorem hashLookup_hashSet_self (hs : List (ModEntry × String)) (e : ModEntry) (v : String) :
    hashLookup (hashSet hs e v) e = some v := by
  induction hs with
  | nil => simp [hashSet, hashLookup]
  | cons p rest ih =>
    by_cases h : p.1 = e
    · simp [hashSet, hashLookup, h]
    · simp [hashSet, hashLookup, h, ih]

theorem hashLookup_hashSet_ne (hs : List (ModEntry × String)) (e e' : ModEntry) (v : String)
    (h : e' ≠ e) : hashLookup (hashSet hs e v) e' = hashLookup hs e' := by
  induction hs with
  | nil => simp [hashSet, hashLookup, Ne.symm h]
  | cons p rest ih =>
    by_cases hp : p.1 = e
    · subst hp
      simp [hashSet, hashLookup, Ne.symm h]
    · simp [hashSet, hashLookup, hp, ih]

theorem setdefaultEmpty_of_some (hs : List (ModEntry × String)) (e : ModEntry) (h : String)
    (hl : hashLookup hs e = some h) : setdefaultEmpty hs e = hs := by
  simp [setdefaultEmpty, hl]

theorem hashLookup_append_one (hs : List (ModEntry × String)) (e e' : ModEntry) (v : String) :
    hashLookup (hs ++ [(e, v)]) e' =
      ((hashLookup hs e').orElse (fun _ => if e = e' then some v else none)) := by
  induction hs with
  | nil => simp [hashLookup]
  | cons p rest ih =>
    by_cases hp : p.1 = e'
    · simp [hashLookup, hp]
    · simp [hashLookup, hp, ih]

theorem hashLookup_setdefault_self (hs : List (ModEntry × String)) (e : ModEntry) :
    hashLookup (setdefaultEmpty hs e) e = some ((hashLookup hs e).getD "") := by
  match hl : hashLookup hs e with
  | some h => simp [setdefaultEmpty, hl]
  | none => simp [setdefaultEmpty, hl, hashLookup_append_one hs e e ""]

theorem hashLookup_setdefault_ne (hs : List (ModEntry × String)) (e e' : ModEntry)
    (h : e' ≠ e) : hashLookup (setdefaultEmpty hs e) e' = hashLookup hs e' := by
  match hl : hashLookup hs e with
  | some v => simp [setdefaultEmpty, hl]
  | none =>
    simp only [setdefaultEmpty, hl, hashLookup_append_one hs e e' ""]
    match hl' : hashLookup hs e' with
    | some v => simp
    | none => simp [Ne.symm h]

theorem thenRun_not_mem (a : List Event × Option PyErr) (k : Unit → List Event × Option PyErr)
    (x : Event) (ha : x ∉ a.1) (hk : x ∉ (k ()).1) : x ∉ (thenRun a k).1 := by
  rcases a with ⟨evs, err⟩
  cases err <;> simp_all [thenRun]

theorem copyListing_no_dispatch (source toPath : FPath) (allowed : List String)
    (cs : List (String × FSNode)) (x : ModEntry) :
    Event.dispatched x ∉ (copyListing source toPath allowed cs).1 := by
  induction cs with
  | nil => simp [copyListing]
  | cons p rest ih =>
    rcases p with ⟨n, node⟩
    simp only [copyListing]
    split
    · cases node with
      | dir cs' => simp
      | file t c => simp [ih]
    · exact ih

theorem migrate_files_no_dispatch (w : World) (source destination : FPath) (hashname : String)
    (allowed : List String) (x : ModEntry) :
    Event.dispatched x ∉ (migrate_files w source destination hashname allowed).1 := by
  unfold migrate_files
  split
  · simp
  · simp
  · exact copyListing_no_dispatch _ _ _ _ _

theorem import_main_script_no_dispatch (w : World) (folderPath : FPath) (mainRel : String)
    (firstUpdate : Bool) (x : ModEntry) :
    Event.dispatched x ∉ (import_main_script w folderPath mainRel firstUpdate).1 := by
  unfold import_main_script
  split
  · split
    · dsimp only
      split <;> simp
    · simp
  · simp

theorem load_folder_no_dispatch (H : Hashers) (w : World) (folderPath : FPath)
    (firstUpdate : Bool) (x : ModEntry) :
    Event.dispatched x ∉ (load_folder_as_mod H w folderPath firstUpdate).1 := by
  unfold load_folder_as_mod
  repeat' split
  any_goals simp
  exact thenRun_not_mem _ _ _ (migrate_files_no_dispatch _ _ _ _ _ _)
    (thenRun_not_mem _ _ _ (migrate_files_no_dispatch _ _ _ _ _ _)
      (thenRun_not_mem _ _ _ (migrate_files_no_dispatch _ _ _ _ _ _)
        (thenRun_not_mem _ _ _ (import_main_script_no_dispatch _ _ _ _ _) (by simp))))

/-- "Non-updateable" kinds in the update condition of `read_mod_entries`. -/
theorem updateable_false {e : ModEntry} (hk : e.type = .PACKED ∨ e.type = .COMPRESSED) :
    (e.type == ModEntryType.PLUGIN || e.type == ModEntryType.FOLDER) = false := by
  rcases hk with h | h <;> simp [h]

/-- "Updateable" kinds in the update condition of `read_mod_entries`. -/
theorem updateable_true {e : ModEntry} (hk : e.type = .PLUGIN ∨ e.type = .FOLDER) :
    (e.type == ModEntryType.PLUGIN || e.type == ModEntryType.FOLDER) = true := by
  rcases hk with h | h <;> simp [h]

theorem read_one_entry_not_exists (H : Hashers) (w : World) (st : LoaderState) (e : ModEntry)
    (hn : w.node e.path = none) :
    read_one_entry H w st e = ({ st with entries := st.entries.erase e }, [], none) := by
  simp [read_one_entry, hn]

theorem read_one_entry_hashes_other (H : Hashers) (w : World) (st : LoaderState)
    (e e' : ModEntry) (h : e' ≠ e) :
    hashLookup (read_one_entry H w st e).1.hashes e' = hashLookup st.hashes e' := by
  unfold read_one_entry
  split
  · simp
  · dsimp only
    split
    · split
      · exact (hashLookup_setdefault_ne st.hashes e e' h) ▸
          (hashLookup_hashSet_ne _ e e' _ h)
      · exact (hashLookup_setdefault_ne st.hashes e e' h) ▸
          (hashLookup_hashSet_ne _ e e' _ h)
    · exact hashLookup_setdefault_ne st.hashes e e' h

theorem read_one_entry_dispatch_mem (H : Hashers) (w : World) (st : LoaderState)
    (e x : ModEntry) (hx : Event.dispatched x ∈ (read_one_entry H w st e).2.1) : x = e := by
  revert hx
  unfold read_one_entry
  split
  · simp
  · dsimp only
    split
    · split
      · intro hx
        rcases List.mem_cons.mp hx with h | h
        · simpa using h
        · exact absurd h (load_folder_no_dispatch _ _ _ _ _)
      · intro hx
        simpa using hx
    · simp

theorem read_one_entry_nonupd_steady (H : Hashers) (w : World) (st : LoaderState)
    (e : ModEntry) (h : String) (node : FSNode)
    (hk : e.type = .PACKED ∨ e.type = .COMPRESSED)
    (hl : hashLookup st.hashes e = some h) (hne : h ≠ "")
    (hn : w.node e.path = some node) :
    read_one_entry H w st e = (st, [], none) := by
  unfold read_one_entry
  rw [hn]
  simp [hl, updateable_false hk, beq_eq_false_iff_ne.mpr hne, setdefaultEmpty]

theorem read_one_entry_upd_eqhash (H : Hashers) (w : World) (st : LoaderState)
    (e : ModEntry) (node : FSNode)
    (hk : e.type = .PLUGIN ∨ e.type = .FOLDER)
    (hn : w.node e.path = some node)
    (heq : (hashLookup st.hashes e).getD "" = H.sha1 (filetreeStream node)) :
    read_one_entry H w st e = ({ st with hashes := setdefaultEmpty st.hashes e }, [], none) := by
  unfold read_one_entry
  rw [hn]
  simp [get_filetree_time_hash, ← heq, updateable_true hk]

theorem read_one_entry_upd_nehash (H : Hashers) (w : World) (st : LoaderState)
    (e : ModEntry) (node : FSNode)
    (hk : e.type = .PLUGIN ∨ e.type = .FOLDER)
    (hn : w.node e.path = some node)
    (hne : (hashLookup st.hashes e).getD "" ≠ H.sha1 (filetreeStream node)) :
    hashLookup (read_one_entry H w st e).1.hashes e = some (H.sha1 (filetreeStream node))
      ∧ Event.dispatched e ∈ (read_one_entry H w st e).2.1 := by
  unfold read_one_entry
  rw [hn]
  have hb : (((hashLookup st.hashes e).getD "" != H.sha1 (filetreeStream node))
      && (e.type == ModEntryType.PLUGIN || e.type == ModEntryType.FOLDER)) = true := by
    simp [updateable_true hk, bne_iff_ne, hne]
  dsimp only
  rw [get_filetree_time_hash, hb]
  simp only [Bool.true_or, if_true]
  split
  · exact ⟨hashLookup_hashSet_self _ _ _, by simp⟩
  · exact ⟨hashLookup_hashSet_self _ _ _, by simp⟩

theorem read_one_entry_nonupd_fresh (H : Hashers) (w : World) (st : LoaderState)
    (e : ModEntry) (node : FSNode)
    (hk : e.type = .PACKED ∨ e.type = .COMPRESSED)
    (hl : hashLookup st.hashes e = none)
    (hn : w.node e.path = some node) :
    read_one_entry H w st e =
      ({ st with hashes := hashSet (st.hashes ++ [(e, "")]) e (H.sha1 (filetreeStream node)) },
        [Event.dispatched e], none) := by
  rcases hk with h | h <;>
    simp [read_one_entry, hn, hl, h, setdefaultEmpty, get_filetree_time_hash]

/-- Once a non-updateable entry has a non-empty digest row, a read pass never
dispatches it again and leaves its row unchanged. -/
theorem read_loop_nonupd_steady (H : Hashers) (w : World) (l : List ModEntry)
    (st : LoaderState) (e : ModEntry) (h : String)
    (hk : e.type = .PACKED ∨ e.type = .COMPRESSED)
    (hl : hashLookup st.hashes e = some h) (hne : h ≠ "") :
    hashLookup (read_loop H w l st).1.hashes e = some h
      ∧ Event.dispatched e ∉ (read_loop H w l st).2.1 := by
  induction l generalizing st with
  | nil => simpa [read_loop] using hl
  | cons e' rest ih =>
    have hoth : hashLookup (read_one_entry H w st e').1.hashes e = some h := by
      by_cases hee : e' = e
      · subst hee
        match hn : w.node e'.path with
        | none => rw [read_one_entry_not_exists H w st e' hn]; exact hl
        | some node =>
          rw [read_one_entry_nonupd_steady H w st e' h node hk hl hne hn]; exact hl
      · rw [read_one_entry_hashes_other H w st e' e (Ne.symm hee)]; exact hl
    have hnd : Event.dispatched e ∉ (read_one_entry H w st e').2.1 := by
      by_cases hee : e' = e
      · subst hee
        match hn : w.node e'.path with
        | none => rw [read_one_entry_not_exists H w st e' hn]; simp
        | some node =>
          rw [read_one_entry_nonupd_steady H w st e' h node hk hl hne hn]; simp
      · intro hmem
        exact hee ((read_one_entry_dispatch_mem H w st e' e hmem).symm)
    simp only [read_loop]
    split
    · exact ⟨hoth, hnd⟩
    · rcases ih (read_one_entry H w st e').1 hoth with ⟨ih1, ih2⟩
      refine ⟨ih1, ?_⟩
      simp only [List.mem_append]
      rintro (hmem | hmem)
      · exact hnd hmem
      · exact ih2 hmem

/-- A non-updateable entry with no digest row is dispatched by a read pass
that reaches it (no earlier abort), after which its row holds the fresh
non-empty digest. -/
theorem read_loop_nonupd_fresh (H : Hashers) (w : World) (l : List ModEntry)
    (st : LoaderState) (e : ModEntry) (node : FSNode)
    (hk : e.type = .PACKED ∨ e.type = .COMPRESSED)
    (hl : hashLookup st.hashes e = none)
    (hn : w.node e.path = some node)
    (hH : H.sha1 (filetreeStream node) ≠ "")
    (hmem : e ∈ l)
    (herr : (read_loop H w l st).2.2 = none) :
    Event.dispatched e ∈ (read_loop H w l st).2.1
      ∧ hashLookup (read_loop H w l st).1.hashes e = some (H.sha1 (filetreeStream node)) := by
  induction l generalizing st with
  | nil => cases hmem
  | cons e' rest ih =>
    by_cases hee : e' = e
    · subst hee
      have hfresh := read_one_entry_nonupd_fresh H w st e' node hk hl hn
      have hset : hashLookup (read_one_entry H w st e').1.hashes e' =
          some (H.sha1 (filetreeStream node)) := by
        rw [hfresh]
        exact hashLookup_hashSet_self _ _ _
      have hsteady := read_loop_nonupd_steady H w rest (read_one_entry H w st e').1 e'
        (H.sha1 (filetreeStream node)) hk hset hH
      simp only [read_loop]
      split
      · next heq => rw [hfresh] at heq; cases heq
      · exact ⟨by simp [hfresh], hsteady.1⟩
    · have hoth : hashLookup (read_one_entry H w st e').1.hashes e = none := by
        rw [read_one_entry_hashes_other H w st e' e (Ne.symm hee)]; exact hl
      have hmem' : e ∈ rest := by
        rcases List.mem_cons.mp hmem with hcontra | hr
        · exact absurd hcontra.symm hee
        · exact hr
      revert herr
      simp only [read_loop]
      split
      · intro herr; cases herr
      · intro herr
        rcases ih (read_one_entry H w st e').1 hoth hmem' herr with ⟨ih1, ih2⟩
        exact ⟨by simp [List.mem_append, ih1], ih2⟩

/-- An updateable entry whose stored digest already equals the fresh digest
is never dispatched by a read pass, and its stored digest stays equal. -/
theorem read_loop_upd_nodisp (H : Hashers) (w : World) (l : List ModEntry)
    (st : LoaderState) (e : ModEntry) (node : FSNode)
    (hk : e.type = .PLUGIN ∨ e.type = .FOLDER)
    (hn : w.node e.path = some node)
    (heq : (hashLookup st.hashes e).getD "" = H.sha1 (filetreeStream node)) :
    Event.dispatched e ∉ (read_loop H w l st).2.1 := by
  induction l generalizing st with
  | nil => simp [read_loop]
  | cons e' rest ih =>
    have hoth : (hashLookup (read_one_entry H w st e').1.hashes e).getD ""
        = H.sha1 (filetreeStream node) := by
      by_cases hee : e' = e
      · subst hee
        rw [read_one_entry_upd_eqhash H w st e' node hk hn heq]
        simpa [hashLookup_setdefault_self] using heq
      · rw [read_one_entry_hashes_other H w st e' e (Ne.symm hee)]; exact heq
    have hnd : Event.dispatched e ∉ (read_one_entry H w st e').2.1 := by
      by_cases hee : e' = e
      · subst hee
        rw [read_one_entry_upd_eqhash H w st e' node hk hn heq]
        simp
      · intro hmem
        exact hee ((read_one_entry_dispatch_mem H w st e' e hmem).symm)
    simp only [read_loop]
    split
    · exact hnd
    · intro hmem
      rcases List.mem_append.mp hmem with hmem | hmem
      · exact hnd hmem
      · exact ih (read_one_entry H w st e').1 hoth hmem

/-- An updateable entry whose stored digest differs from the fresh digest is
dispatched by a read pass that completes without an abort. -/
theorem read_loop_upd_disp (H : Hashers) (w : World) (l : List ModEntry)
    (st : LoaderState) (e : ModEntry) (node : FSNode)
    (hk : e.type = .PLUGIN ∨ e.type = .FOLDER)
    (hn : w.node e.path = some node)
    (hne : (hashLookup st.hashes e).getD "" ≠ H.sha1 (filetreeStream node))
    (hmem : e ∈ l)
    (herr : (read_loop H w l st).2.2 = none) :
    Event.dispatched e ∈ (read_loop H w l st).2.1 := by
  induction l generalizing st with
  | nil => cases hmem
  | cons e' rest ih =>
    by_cases hee : e' = e
    · subst hee
      have hdisp := (read_one_entry_upd_nehash H w st e' node hk hn hne).2
      simp only [read_loop]
      split
      · exact hdisp
      · simp [List.mem_append, hdisp]
    · have hoth : (hashLookup (read_one_entry H w st e').1.hashes e).getD ""
          ≠ H.sha1 (filetreeStream node) := by
        rw [read_one_entry_hashes_other H w st e' e (Ne.symm hee)]; exact hne
      have hmem' : e ∈ rest := by
        rcases List.mem_cons.mp hmem with hcontra | hr
        · exact absurd hcontra.symm hee
        · exact hr
      revert herr
      simp only [read_loop]
      split
      · intro herr; cases herr
      · intro herr
        simp [List.mem_append, ih (read_one_entry H w st e').1 hoth hmem' herr]

/-- `add_entries` never touches the digest dictionary. -/
theorem add_entries_hashes (st : LoaderState) (l : List ModEntry) :
    (add_entries st l).hashes = st.hashes := by
  induction l generalizing st with
  | nil => rfl
  | cons e rest ih =>
    simp only [add_entries, List.foldl_cons] at ih ⊢
    split <;> exact ih _

/-- `add_entries` only adds entries: membership is preserved. -/
theorem add_entries_mem (st : LoaderState) (l : List ModEntry) (e : ModEntry)
    (hmem : e ∈ st.entries) : e ∈ (add_entries st l).entries := by
  induction l generalizing st with
  | nil => exact hmem
  | cons e' rest ih =>
    simp only [add_entries, List.foldl_cons] at ih ⊢
    split
    · exact ih _ hmem
    · exact ih _ (by simp [hmem])

/-- The discovery phase never touches the digest dictionary. -/
theorem scan_discover_hashes (w : World) (st : LoaderState) :
    (scan_discover w st).hashes = st.hashes := by
  unfold scan_discover
  generalize st.pathsToScan = roots
  induction roots generalizing st with
  | nil => rfl
  | cons r rest ih =>
    simp only [List.foldl_cons]
    split
    · rw [ih (add_entries st _), add_entries_hashes]
    · exact ih st

/-- The discovery phase only adds entries: membership is preserved. -/
theorem scan_discover_mem (w : World) (st : LoaderState) (e : ModEntry)
    (hmem : e ∈ st.entries) : e ∈ (scan_discover w st).entries := by
  unfold scan_discover
  generalize st.pathsToScan = roots
  induction roots generalizing st with
  | nil => exact hmem
  | cons r rest ih =>
    simp only [List.foldl_cons]
    split
    · exact ih (add_entries st _) (add_entries_mem st _ e hmem)
    · exact ih st hmem

/-- Once a non-updateable entry has a non-empty digest row, no later cycle,
whatever the filesystem does, ever dispatches it again. -/
theorem run_cycles_nonupd_steady (H : Hashers) (ws : List World)
    (st : LoaderState) (e : ModEntry) (h : String)
    (hk : e.type = .PACKED ∨ e.type = .COMPRESSED)
    (hl : hashLookup st.hashes e = some h) (hne : h ≠ "") :
    ∀ r ∈ run_cycles H st ws, Event.dispatched e ∉ r.2.1 := by
  induction ws generalizing st h with
  | nil => simp [run_cycles]
  | cons w rest ih =>
    have hl' : hashLookup (scan_discover w st).hashes e = some h := by
      rw [scan_discover_hashes]; exact hl
    have hsteady := read_loop_nonupd_steady H w (scan_discover w st).entries
      (scan_discover w st) e h hk hl' hne
    intro r hr
    simp only [run_cycles, List.mem_cons] at hr
    rcases hr with hr | hr
    · subst hr
      exact hsteady.2
    · exact ih _ h hsteady.1 hne r hr

theorem tagHashers_sha1_ne_empty (s : String) : tagHashers.sha1 s ≠ "" := by
  intro h
  have hlen := congrArg String.length h
  simp [tagHashers, String.length_append] at hlen
  exact absurd hlen.1 (by decide)

/-- Every copy event of the copy loop targets `toPath ++ [name]` for the
listed `name`, with source `source ++ [name]`. -/
theorem copyListing_copied_mem (source toPath : FPath) (allowed : List String)
    (cs : List (String × FSNode)) (s d : FPath)
    (hmem : Event.copied s d ∈ (copyListing source toPath allowed cs).1) :
    ∃ n, s = source ++ [n] ∧ d = toPath ++ [n] := by
  induction cs with
  | nil => simp [copyListing] at hmem
  | cons p rest ih =>
    rcases p with ⟨n, node⟩
    revert hmem
    simp only [copyListing]
    split
    · cases node with
      | dir cs' => simp
      | file t c =>
        intro hmem
        rcases List.mem_cons.mp hmem with h | h
        · rcases Event.copied.inj h with ⟨hs, hd⟩
          exact ⟨n, hs, hd⟩
        · exact ih h
    · exact ih

/-- As `copyListing_copied_mem`, lifted to `migrate_files`. -/
theorem migrate_files_copied_mem (w : World) (source destination : FPath) (hashname : String)
    (allowed : List String) (s d : FPath)
    (hmem : Event.copied s d ∈ (migrate_files w source destination hashname allowed).1) :
    ∃ n, s = source ++ [n] ∧ d = (destination ++ [hashname]) ++ [n] := by
  revert hmem
  unfold migrate_files
  split
  · simp
  · simp
  · exact copyListing_copied_mem _ _ _ _ _ _

/-- On an all-files listing the copy loop copies exactly the allowed-suffix
entries, in listing order, and raises nothing. -/
theorem copyListing_files (source toPath : FPath) (allowed : List String)
    (cs : List (String × FSNode))
    (hf : ∀ p ∈ cs, ∃ t c, p.2 = FSNode.file t c) :
    copyListing source toPath allowed cs =
      ((cs.filter (fun p => allowed.contains (pathSuffix p.1))).map
        (fun p => Event.copied (source ++ [p.1]) (toPath ++ [p.1])), none) := by
  induction cs with
  | nil => simp [copyListing]
  | cons p rest ih =>
    rcases p with ⟨n, node⟩
    rcases hf (n, node) (by simp) with ⟨t, c, hc⟩
    subst hc
    have ih' := ih (fun q hq => hf q (by simp [hq]))
    simp only [copyListing, List.filter_cons]
    by_cases h : pathSuffix n ∈ allowed
    · simp [h, ih']
    · simp [h, ih']

/-! ## Claim theorems -/

/-- **C3** (counterexample).  The claim says the `Folder` digest hashes the
ordered concatenation of `(filename, mtime)` pairs.  On the folder holding
the single file `a` with mtime 5, the stream actually hashed is `"5"` while
the claimed pair stream is `"a5"`; moreover renaming the file to `b` changes
the claimed stream but leaves the hashed stream — and hence the digest under
any hash function — unchanged. -/
theorem c3_counterexample :
    filetreeStream (.dir [("a", .file 5 .other)]) ≠ claimedDirStream [("a", .file 5 .other)]
    ∧ claimedDirStream [("a", .file 5 .other)] ≠ claimedDirStream [("b", .file 5 .other)]
    ∧ filetreeStream (.dir [("a", .file 5 .other)]) =
        filetreeStream (.dir [("b", .file 5 .other)]) := by
  exact ⟨by decide, by decide, rfl⟩

/-- **C3** (amended).  For every `Folder` package the digest is the hash of
the ordered concatenation of the modification-time strings alone — the
filenames fix the (sorted-per-directory) order but are not fed to the
hash — and for a single-file package it is the hash of that one file's
modification time. -/
theorem c3_amended :
    (∀ (sha1 : String → String) (cs : List (String × FSNode)),
      get_filetree_time_hash sha1 (.dir cs) = sha1 (amendedDirStream cs))
    ∧ (∀ (sha1 : String → String) (t : Nat) (c : FileContent),
      get_filetree_time_hash sha1 (.file t c) = sha1 (toString t)) := by
  constructor
  · intro sha1 cs
    simp only [get_filetree_time_hash, filetreeStream, amendedDirStream]
    rw [dirMtimes_eq_dirPairs, List.map_map]
    rfl
  · intro sha1 t c
    rfl

/-- **C6**.  `add_scan_path` fails exactly when the path does not exist or is
not a directory (`FileNotFoundError` and `NotADirectoryError` respectively),
and on success appends the path to the end of the scan list, changing
nothing else; the raise happens before the append, so a failing call leaves
the scan list unchanged. -/
theorem c6_add_scan_path :
    (∀ w st p, (∃ er, add_scan_path w st p = .error er) ↔
      ¬ ∃ cs, w.node p = some (.dir cs))
    ∧ (∀ w st p st', add_scan_path w st p = .ok st' →
      st' = { st with pathsToScan := st.pathsToScan ++ [p] })
    ∧ (∀ w st p, w.node p = none → add_scan_path w st p = .error .fileNotFoundError)
    ∧ (∀ w st p t c, w.node p = some (.file t c) →
      add_scan_path w st p = .error .notADirectoryError) := by
  refine ⟨?_, ?_, ?_, ?_⟩
  · intro w st p
    unfold add_scan_path
    match hn : w.node p with
    | none => simp [hn]
    | some (.file t c) => simp [hn]
    | some (.dir cs) => simp [hn]
  · intro w st p st'
    unfold add_scan_path
    match hn : w.node p with
    | none => intro h; cases h
    | some (.file t c) => intro h; cases h
    | some (.dir cs) => intro h; cases h; rfl
  · intro w st p hn
    simp [add_scan_path, hn]
  · intro w st p t c hn
    simp [add_scan_path, hn]

/-- **C6** (witness). -/
theorem c6_add_scan_path_witness :
    add_scan_path mworld1 state0 ["mods"] =
      .ok { state0 with pathsToScan := state0.pathsToScan ++ [["mods"]] }
    ∧ add_scan_path mworld1 state0 ["nope"] = .error .fileNotFoundError
    ∧ add_scan_path mworld1 state0 ["mods", "m", "f.txt"] = .error .notADirectoryError := by
  refine ⟨rfl, ?_, ?_⟩
  · exact c6_add_scan_path.2.2.1 mworld1 state0 ["nope"] rfl
  · exact c6_add_scan_path.2.2.2 mworld1 state0 ["mods", "m", "f.txt"] 1 .other rfl

/-- **C7**.  The asset destination folder is
`destination ++ [sha256(name & author)]`, a function of the manifest's
`(name, author)` alone: two migrations with the same `(name, author)` but
different source paths and source contents send a same-named file to the
identical destination path (so the later write overwrites the earlier). -/
theorem c7_identity_stable (sha256 : String → String) (name author : String)
    (w1 w2 : World) (p1 p2 dest : FPath) (allowed : List String) (f : String)
    (d1 d2 : FPath)
    (h1 : Event.copied (p1 ++ [f]) d1 ∈
      (migrate_files w1 p1 dest (generate_mod_name_hash sha256 name author) allowed).1)
    (h2 : Event.copied (p2 ++ [f]) d2 ∈
      (migrate_files w2 p2 dest (generate_mod_name_hash sha256 name author) allowed).1) :
    d1 = (dest ++ [generate_mod_name_hash sha256 name author]) ++ [f] ∧ d1 = d2 := by
  rcases migrate_files_copied_mem w1 p1 dest _ allowed _ d1 h1 with ⟨n1, hs1, hd1⟩
  rcases migrate_files_copied_mem w2 p2 dest _ allowed _ d2 h2 with ⟨n2, hs2, hd2⟩
  have hn1 : n1 = f := by
    have := List.append_cancel_left hs1
    simpa using this.symm
  have hn2 : n2 = f := by
    have := List.append_cancel_left hs2
    simpa using this.symm
  subst hn1 hn2
  exact ⟨hd1, hd1.trans hd2.symm⟩

/-- **C7** (witness): two one-file packages at different paths (and different
file timestamps) with the same `(name, author)` land `icon.png` at the
identical destination path. -/
theorem c7_identity_stable_witness :
    (["out", "%Cool&Ann", "icon.png"] : FPath)
        = (["out"] ++ [generate_mod_name_hash tagHashers.sha256 "Cool" "Ann"]) ++ ["icon.png"]
    ∧ (["out", "%Cool&Ann", "icon.png"] : FPath) = ["out", "%Cool&Ann", "icon.png"] :=
  c7_identity_stable tagHashers.sha256 "Cool" "Ann"
    ⟨.dir [("src1", .dir [("tex", .dir [("icon.png", .file 1 .other)])])], []⟩
    ⟨.dir [("src2", .dir [("tex", .dir [("icon.png", .file 9 .other)])])], []⟩
    ["src1", "tex"] ["src2", "tex"] ["out"] [".png"] "icon.png"
    ["out", "%Cool&Ann", "icon.png"] ["out", "%Cool&Ann", "icon.png"]
    (by decide) (by decide)

/-- **C8**.  Migration of one resource kind: a missing source directory is
skipped without error; an existing source directory (of regular files) has
exactly its allowed-suffix files copied, in listing order, and
disallowed-suffix files are never copied. -/
theorem c8_migrate_filtering :
    (∀ w source dest h allowed, w.node source = none →
      migrate_files w source dest h allowed = ([], none))
    ∧ (∀ (w : World) (source dest : FPath) (h : String) (allowed : List String) cs,
      w.node source = some (.dir cs) →
      (∀ p ∈ cs, ∃ t c, p.2 = FSNode.file t c) →
      migrate_files w source dest h allowed =
        ((cs.filter (fun p => allowed.contains (pathSuffix p.1))).map
          (fun p => Event.copied (source ++ [p.1]) ((dest ++ [h]) ++ [p.1])), none)) := by
  constructor
  · intro w source dest h allowed hn
    simp [migrate_files, hn]
  · intro w source dest h allowed cs hn hf
    rw [migrate_files, hn]
    exact copyListing_files source (dest ++ [h]) allowed cs hf

/-- **C8** (witness): of `icon.png` and `notes.txt` only the `.png` file is
copied; a missing source is skipped silently. -/
theorem c8_migrate_filtering_witness :
    migrate_files ⟨.dir [("tex", .dir [("icon.png", .file 1 .other),
        ("notes.txt", .file 2 .other)])], []⟩ ["tex"] ["out"] "hh" [".png", ".dds", ".ktx"]
      = ([Event.copied ["tex", "icon.png"] ["out", "hh", "icon.png"]], none)
    ∧ migrate_files ⟨.dir [], []⟩ ["tex"] ["out"] "hh" [".png"] = ([], none) := by
  constructor
  · have h := c8_migrate_filtering.2 ⟨.dir [("tex", .dir [("icon.png", .file 1 .other),
        ("notes.txt", .file 2 .other)])], []⟩ ["tex"] ["out"] "hh" [".png", ".dds", ".ktx"]
      [("icon.png", .file 1 .other), ("notes.txt", .file 2 .other)] rfl
      (by
        intro p hp
        rcases List.mem_cons.mp hp with rfl | hp
        · exact ⟨1, .other, rfl⟩
        · rcases List.mem_singleton.mp hp with rfl
          exact ⟨2, .other, rfl⟩)
    rw [h]
    rfl
  · exact c8_migrate_filtering.1 ⟨.dir [], []⟩ ["tex"] ["out"] "hh" [".png"] rfl

/-- **C9**.  Classification is a pure function of shape and extension:
directories map to `FOLDER`; files map by suffix `.py` / `.bsmod` /
`.zip`-or-`.rar` to `PLUGIN` / `PACKED` / `COMPRESSED`; any other suffix
maps to `none`; and everything the discovery phase tracks comes from an
entry that classified to some kind. -/
theorem c9_classification :
    (∀ n cs, classify_entry n (some (.dir cs)) = some .FOLDER)
    ∧ (∀ n t c, pathSuffix n = ".py" → classify_entry n (some (.file t c)) = some .PLUGIN)
    ∧ (∀ n t c, pathSuffix n = ".bsmod" → classify_entry n (some (.file t c)) = some .PACKED)
    ∧ (∀ n t c, pathSuffix n = ".zip" ∨ pathSuffix n = ".rar" →
      classify_entry n (some (.file t c)) = some .COMPRESSED)
    ∧ (∀ n t c, pathSuffix n ∉ ([".py", ".bsmod", ".zip", ".rar"] : List String) →
      classify_entry n (some (.file t c)) = none)
    ∧ (∀ root cs e, e ∈ discover_root root cs →
      ∃ p ∈ cs, classify_entry p.1 (some p.2) = some e.type ∧ e.path = root ++ [p.1]) := by
  refine ⟨?_, ?_, ?_, ?_, ?_, ?_⟩
  · intro n cs; rfl
  · intro n t c h; simp [classify_entry, h]
  · intro n t c h; simp [classify_entry, h]
  · intro n t c h; rcases h with h | h <;> simp [classify_entry, h]
  · intro n t c h
    unfold classify_entry
    split <;> simp_all
  · intro root cs e hmem
    rcases List.mem_filterMap.mp hmem with ⟨p, hp, hf⟩
    rcases Option.map_eq_some'.mp hf with ⟨ty, hcl, hty⟩
    refine ⟨p, hp, ?_, ?_⟩
    · rw [hcl, ← hty]
    · rw [← hty]

/-- **C9** (witness). -/
theorem c9_classification_witness :
    classify_entry "a.py" (some (.file 1 .other)) = some .PLUGIN
    ∧ classify_entry "a.txt" (some (.file 1 .other)) = none
    ∧ classify_entry "m.rar" (some (.file 1 .other)) = some .COMPRESSED := by
  refine ⟨?_, ?_, ?_⟩
  · exact c9_classification.2.1 "a.py" 1 .other (by decide)
  · exact c9_classification.2.2.2.2.1 "a.txt" 1 .other (by decide)
  · exact c9_classification.2.2.2.1 "m.rar" 1 .other (Or.inr (by decide))

/-- **C10**.  The identity hash joins name and author with `&`, which can
occur in either field: the distinct pairs `("A&B", "C")` and `("A", "B&C")`
encode to the same title string, so they get the same identity hash and the
same destination folder under every hash function. -/
theorem c10_identity_hash_collision :
    encodedTitle "A&B" "C" = encodedTitle "A" "B&C"
    ∧ (("A&B", "C") ≠ (("A" : String), ("B&C" : String)))
    ∧ (∀ sha256 : String → String,
      generate_mod_name_hash sha256 "A&B" "C" = generate_mod_name_hash sha256 "A" "B&C")
    ∧ (∀ (sha256 : String → String) (dest : FPath),
      dest ++ [generate_mod_name_hash sha256 "A&B" "C"]
        = dest ++ [generate_mod_name_hash sha256 "A" "B&C"]) := by
  exact ⟨by decide, by decide, fun s => rfl, fun s dest => rfl⟩

/-- **C1** (counterexample).  In `mworld1` the folder `mods/m` has no
manifest, so its processing does not fully succeed (nothing is migrated or
imported); yet the first cycle commits the fresh digest `"#1"` for the
entry — `read_mod_entries` writes the hash before dispatching — and the
second cycle over the unchanged filesystem does not process the entry
again, contradicting both halves of the claim. -/
theorem c1_counterexample :
    get_manifest_data mworld1 ["mods", "m"] = none
    ∧ (scan_for_mods tagHashers mworld1 state0).2.1 = [Event.dispatched folderEntryM]
    ∧ (scan_for_mods tagHashers mworld1 state0).2.2 = none
    ∧ hashLookup (scan_for_mods tagHashers mworld1 state0).1.hashes folderEntryM = some "#1"
    ∧ ("#1" : String) ≠ ""
    ∧ (scan_for_mods tagHashers mworld1 (scan_for_mods tagHashers mworld1 state0).1).2.1 = [] := by
  exact ⟨rfl, by decide, rfl, by decide, by decide, by decide⟩

/-- **C1** (amended).  The catalog digest is committed at dispatch time,
before any processing step runs: whenever a `Folder` entry's fresh digest
differs from the recorded one, the fresh digest is recorded regardless of
whether processing succeeds; consequently an entry whose recorded digest
already equals the fresh one (e.g. after a failed or manifest-less attempt)
is not dispatched again. -/
theorem c1_amended_commit_at_dispatch :
    (∀ (H : Hashers) (w : World) (st : LoaderState) (e : ModEntry) (node : FSNode),
      e.type = .FOLDER → w.node e.path = some node →
      (hashLookup st.hashes e).getD "" ≠ H.sha1 (filetreeStream node) →
      hashLookup (read_one_entry H w st e).1.hashes e = some (H.sha1 (filetreeStream node)))
    ∧ (∀ (H : Hashers) (w : World) (st : LoaderState) (e : ModEntry) (node : FSNode),
      e.type = .FOLDER → w.node e.path = some node →
      (hashLookup st.hashes e).getD "" = H.sha1 (filetreeStream node) →
      read_one_entry H w st e = ({ st with hashes := setdefaultEmpty st.hashes e }, [], none)) := by
  constructor
  · intro H w st e node hk hn hne
    exact (read_one_entry_upd_nehash H w st e node (Or.inr hk) hn hne).1
  · intro H w st e node hk hn heq
    exact read_one_entry_upd_eqhash H w st e node (Or.inr hk) hn heq

/-- **C1** (witness). -/
theorem c1_amended_commit_at_dispatch_witness :
    hashLookup (read_one_entry tagHashers mworld1 state0 folderEntryM).1.hashes folderEntryM
      = some (tagHashers.sha1 (filetreeStream (.dir [("f.txt", .file 1 .other)])))
    ∧ read_one_entry tagHashers mworld1 state4 folderEntryM
      = ({ state4 with hashes := setdefaultEmpty state4.hashes folderEntryM }, [], none) := by
  constructor
  · exact c1_amended_commit_at_dispatch.1 tagHashers mworld1 state0 folderEntryM
      (.dir [("f.txt", .file 1 .other)]) rfl rfl (by decide)
  · exact c1_amended_commit_at_dispatch.2 tagHashers mworld1 state4 folderEntryM
      (.dir [("f.txt", .file 1 .other)]) rfl rfl (by decide)

/-- **C2** (counterexample).  In `mworld2` the folder `mods/abad` has a
manifest without the `name` key; the resulting `KeyError` escapes the cycle
uncaught (`read_mod_entries` reports the exception) and the tracked plugin
entry `mods/cgood.py`, iterated after it, is not processed at all in that
cycle — no dispatch and no digest row. -/
theorem c2_counterexample :
    (scan_for_mods tagHashers mworld2 state0).2.2 = some (PyErr.keyError "name")
    ∧ pluginEntryC ∈ (scan_for_mods tagHashers mworld2 state0).1.entries
    ∧ Event.dispatched pluginEntryC ∉ (scan_for_mods tagHashers mworld2 state0).2.1
    ∧ hashLookup (scan_for_mods tagHashers mworld2 state0).1.hashes pluginEntryC = none := by
  exact ⟨rfl, by decide, by decide, rfl⟩

/-- **C2** (amended).  Only manifest absence and manifest JSON parse
failures are handled inside the cycle (`_load_folder_as_mod` returns
silently); any exception raised while processing one entry — missing
manifest key, non-directory folder path, copy error, import error — aborts
`read_mod_entries`, leaving every entry after it in iteration order
unprocessed for that cycle. -/
theorem c2_amended_partial_catching :
    (∀ (H : Hashers) (w : World) (p : FPath) (fu : Bool) (cs : List (String × FSNode)),
      w.node p = some (.dir cs) → get_manifest_data w p = none →
      load_folder_as_mod H w p fu = ([], none))
    ∧ (∀ (H : Hashers) (w : World) (e : ModEntry) (rest : List ModEntry)
        (st : LoaderState) (er : PyErr),
      (read_one_entry H w st e).2.2 = some er →
      read_loop H w (e :: rest) st =
        ((read_one_entry H w st e).1, (read_one_entry H w st e).2.1, some er)) := by
  constructor
  · intro H w p fu cs hn hm
    simp [load_folder_as_mod, hn, hm]
  · intro H w e rest st er her
    simp [read_loop, her]

/-- **C2** (witness). -/
theorem c2_amended_partial_catching_witness :
    load_folder_as_mod tagHashers mworld1 ["mods", "m"] true = ([], none)
    ∧ read_loop tagHashers mworld2 [folderEntryBad, pluginEntryC]
        { state0 with entries := [folderEntryBad, pluginEntryC] }
      = ((read_one_entry tagHashers mworld2
            { state0 with entries := [folderEntryBad, pluginEntryC] } folderEntryBad).1,
         (read_one_entry tagHashers mworld2
            { state0 with entries := [folderEntryBad, pluginEntryC] } folderEntryBad).2.1,
         some (PyErr.keyError "name")) := by
  constructor
  · exact c2_amended_partial_catching.1 tagHashers mworld1 ["mods", "m"] true
      [("f.txt", .file 1 .other)] rfl rfl
  · exact c2_amended_partial_catching.2 tagHashers mworld2 folderEntryBad [pluginEntryC]
      { state0 with entries := [folderEntryBad, pluginEntryC] } (PyErr.keyError "name") rfl

/-- **C4** (counterexample).  Starting from a state tracking `mods/m` with
digest `"#1"`, a cycle in which the path has disappeared drops the entry
from the tracked set but leaves its digest row in the catalog; when the
same path and kind reappear unchanged, the next cycle re-tracks the entry
but does not process it — the stale row, not the empty sentinel, decides. -/
theorem c4_counterexample :
    (scan_for_mods tagHashers missWorld state4).1.entries = []
    ∧ hashLookup (scan_for_mods tagHashers missWorld state4).1.hashes folderEntryM = some "#1"
    ∧ folderEntryM ∈
        (scan_for_mods tagHashers mworld1 (scan_for_mods tagHashers missWorld state4).1).1.entries
    ∧ (scan_for_mods tagHashers mworld1 (scan_for_mods tagHashers missWorld state4).1).2.1 = [] := by
  exact ⟨rfl, by decide, by decide, rfl⟩

/-- **C4** (amended).  An entry whose path no longer exists is dropped from
the tracked-entry set, but its digest row persists in the catalog.  An
entry with no row gets the empty sentinel on its first read, which forces
its first processing; a reappearing entry instead resumes from its
persisted digest, and a `Folder` entry whose persisted digest equals the
fresh one is not processed. -/
theorem c4_amended_row_persistence :
    (∀ (H : Hashers) (w : World) (st : LoaderState) (e : ModEntry),
      w.node e.path = none →
      read_one_entry H w st e = ({ st with entries := st.entries.erase e }, [], none))
    ∧ (∀ (H : Hashers) (w : World) (st : LoaderState) (e : ModEntry) (node : FSNode),
      hashLookup st.hashes e = none → w.node e.path = some node →
      H.sha1 (filetreeStream node) ≠ "" →
      Event.dispatched e ∈ (read_one_entry H w st e).2.1)
    ∧ (∀ (H : Hashers) (w : World) (st : LoaderState) (e : ModEntry) (node : FSNode),
      e.type = .FOLDER → w.node e.path = some node →
      (hashLookup st.hashes e).getD "" = H.sha1 (filetreeStream node) →
      (read_one_entry H w st e).2.1 = []) := by
  refine ⟨?_, ?_, ?_⟩
  · intro H w st e hn
    exact read_one_entry_not_exists H w st e hn
  · intro H w st e node hl hn hH
    have hgd : (hashLookup st.hashes e).getD "" = "" := by rw [hl]; rfl
    match hty : e.type with
    | .PLUGIN =>
      exact (read_one_entry_upd_nehash H w st e node (Or.inl hty) hn
        (by rw [hgd]; exact Ne.symm hH)).2
    | .FOLDER =>
      exact (read_one_entry_upd_nehash H w st e node (Or.inr hty) hn
        (by rw [hgd]; exact Ne.symm hH)).2
    | .PACKED =>
      rw [read_one_entry_nonupd_fresh H w st e node (Or.inl hty) hl hn]
      simp
    | .COMPRESSED =>
      rw [read_one_entry_nonupd_fresh H w st e node (Or.inr hty) hl hn]
      simp
  · intro H w st e node hk hn heq
    rw [read_one_entry_upd_eqhash H w st e node (Or.inr hk) hn heq]

/-- **C4** (witness). -/
theorem c4_amended_row_persistence_witness :
    read_one_entry tagHashers missWorld state4 folderEntryM
      = ({ state4 with entries := state4.entries.erase folderEntryM }, [], none)
    ∧ Event.dispatched pluginEntryQ ∈
        (read_one_entry tagHashers pluginWorld statePlugin pluginEntryQ).2.1
    ∧ (read_one_entry tagHashers mworld1 state4 folderEntryM).2.1 = [] := by
  refine ⟨?_, ?_, ?_⟩
  · exact c4_amended_row_persistence.1 tagHashers missWorld state4 folderEntryM rfl
  · exact c4_amended_row_persistence.2.1 tagHashers pluginWorld statePlugin pluginEntryQ
      (.file 3 .other) rfl rfl (by decide)
  · exact c4_amended_row_persistence.2.2 tagHashers mworld1 state4 folderEntryM
      (.dir [("f.txt", .file 1 .other)]) rfl rfl (by decide)

/-- **C5**.  (a) A `Packed`/`Compressed` entry with no digest row is
selected for processing in the first cycle that reads it (provided that
cycle is not aborted by another entry's exception), and — whatever the
filesystem then does over any sequence of later cycles — it is never
selected again.  (b) A `Folder`/`Plugin` entry is selected in a completed
read pass exactly when its freshly computed digest differs from the
recorded one (the empty sentinel for a fresh row). -/
theorem c5_process_once_vs_on_change :
    (∀ (H : Hashers), (∀ s, H.sha1 s ≠ "") →
      ∀ (w1 : World) (ws : List World) (st : LoaderState) (e : ModEntry) (node : FSNode),
      (e.type = .PACKED ∨ e.type = .COMPRESSED) →
      e ∈ st.entries →
      hashLookup st.hashes e = none →
      w1.node e.path = some node →
      (scan_for_mods H w1 st).2.2 = none →
      Event.dispatched e ∈ (scan_for_mods H w1 st).2.1
        ∧ ∀ r ∈ run_cycles H (scan_for_mods H w1 st).1 ws, Event.dispatched e ∉ r.2.1)
    ∧ (∀ (H : Hashers) (w : World) (st : LoaderState) (e : ModEntry) (node : FSNode),
      (e.type = .PLUGIN ∨ e.type = .FOLDER) →
      e ∈ st.entries →
      w.node e.path = some node →
      (read_mod_entries H w st).2.2 = none →
      (Event.dispatched e ∈ (read_mod_entries H w st).2.1 ↔
        H.sha1 (filetreeStream node) ≠ (hashLookup st.hashes e).getD "")) := by
  constructor
  · intro H hH w1 ws st e node hk hmem hl hn herr
    have hl1 : hashLookup (scan_discover w1 st).hashes e = none := by
      rw [scan_discover_hashes]; exact hl
    have hm1 : e ∈ (scan_discover w1 st).entries := scan_discover_mem w1 st e hmem
    have hfresh := read_loop_nonupd_fresh H w1 (scan_discover w1 st).entries
      (scan_discover w1 st) e node hk hl1 hn (hH _) hm1 herr
    exact ⟨hfresh.1, run_cycles_nonupd_steady H ws _ e _ hk hfresh.2 (hH _)⟩
  · intro H w st e node hk hmem hn herr
    constructor
    · intro hd
      by_contra hne
      exact read_loop_upd_nodisp H w st.entries st e node hk hn hne.symm hd
    · intro hne
      exact read_loop_upd_disp H w st.entries st e node hk hn (Ne.symm hne) hmem herr

/-- **C5** (witness). -/
theorem c5_process_once_vs_on_change_witness :
    Event.dispatched packedEntry ∈ (scan_for_mods tagHashers packedWorld statePacked).2.1
    ∧ Event.dispatched packedEntry ∉
        (scan_for_mods tagHashers packedWorld
          (scan_for_mods tagHashers packedWorld statePacked).1).2.1
    ∧ Event.dispatched pluginEntryQ ∈ (read_mod_entries tagHashers pluginWorld statePlugin).2.1 := by
  have ha := c5_process_once_vs_on_change.1 tagHashers tagHashers_sha1_ne_empty
    packedWorld [packedWorld] statePacked packedEntry (.file 2 .other)
    (Or.inl rfl) (by decide) rfl rfl rfl
  refine ⟨ha.1, ?_, ?_⟩
  · exact ha.2
      (scan_for_mods tagHashers packedWorld (scan_for_mods tagHashers packedWorld statePacked).1)
      (by simp [run_cycles])
  · exact (c5_process_once_vs_on_change.2 tagHashers pluginWorld statePlugin pluginEntryQ
      (.file 3 .other) (Or.inl rfl) (by decide) rfl rfl).mpr (by decide)

end FuseCore
